import Mathlib

/-!
Verification of the Omni API client (src/omni_python_sdk/api.py) against its
specification. The development shallowly embeds the query-execution path
(`run_query_blocking`, `wait_query_blocking`), the body-mutating create
helpers, and the `listify` helper. HTTP interaction is modelled by passing
the remote responses explicitly: the initial submit response plus a script
(list) of wait responses consumed in order. Each wait call is recorded in a
trace carrying the job-handle list sent with that request.
-/

namespace OmniSDK

/-- Field-metadata descriptor object (opaque to the client; carried verbatim
from the response record to the caller as `summary.fields`). -/
structure FieldDesc where
  fieldName : String
  fieldType : String
deriving DecidableEq

/-- One parsed NDJSON record of a query response. Absent keys are `none`;
accessing an absent key in the Python code raises `KeyError`. The nested
`summary.fields` access is collapsed into one optional field. The `result`
value is the base64 text, modelled as its list of character codes. -/
structure Record where
  timed_out : Option String := none
  remaining_job_ids : Option (List String) := none
  result : Option (List Nat) := none
  summary_fields : Option (List FieldDesc) := none
deriving DecidableEq

/-- An HTTP response from the remote service: status code plus the already
parsed NDJSON body. -/
structure HttpResponse where
  status_code : Nat
  records : List Record
deriving DecidableEq

/-- Errors the embedded Python code can raise. `scriptEnd` is not a Python
error: it marks executions where the unbounded poll loop would issue more
wait requests than the finite response script provides. -/
inductive QErr where
  | keyError (key : String)
  | indexError
  | httpError (code : Nat)
  | typeError
  | valueError (msg : String)
  | b64Error
  | arrowError
  | scriptEnd
deriving DecidableEq

/-- Column of an in-memory table. The column name is modelled as its list of
character code points. -/
structure Column where
  name : List Nat
  data : List Nat
deriving DecidableEq

/-- In-memory columnar table (model of a `pyarrow.Table`). -/
structure Table where
  columns : List Column
deriving DecidableEq

/-! ### Varint byte encoding, used by the table codec -/

/-- Little-endian base-128 varint encoding of a natural number, with fuel to
keep the recursion structural; `fuel > n` always suffices. -/
def varintBytes : Nat → Nat → List Nat
  | 0, _ => []
  | fuel + 1, n => if n < 128 then [n] else (n % 128 + 128) :: varintBytes fuel (n / 128)

/-- Self-delimiting varint encoding of a natural number. -/
def encodeVarint (n : Nat) : List Nat :=
  varintBytes (n + 1) n

/-- Decode one varint from the front of a byte list, returning the value and
the remaining bytes. -/
def decodeVarint : List Nat → Option (Nat × List Nat)
  | [] => none
  | b :: rest =>
    if b < 128 then some (b, rest)
    else
      match decodeVarint rest with
      | none => none
      | some (n, rest2) => some (b - 128 + 128 * n, rest2)

/-- Length-prefixed encoding of a list of naturals: a varint count followed
by one varint per element. -/
def encodeList (l : List Nat) : List Nat :=
  encodeVarint l.length ++ (l.map encodeVarint).flatten

/-- Decode exactly `count` varints from the front of a byte list. -/
def decodeNats : Nat → List Nat → Option (List Nat × List Nat)
  | 0, bs => some ([], bs)
  | k + 1, bs =>
    match decodeVarint bs with
    | none => none
    | some (v, bs1) =>
      match decodeNats k bs1 with
      | none => none
      | some (vs, bs2) => some (v :: vs, bs2)

/-- Decode a length-prefixed list of naturals. -/
def decodeList (bs : List Nat) : Option (List Nat × List Nat) :=
  match decodeVarint bs with
  | none => none
  | some (k, bs1) => decodeNats k bs1

/-- Serialize one column: its name code points, then its data values. -/
def encodeColumn (c : Column) : List Nat :=
  encodeList c.name ++ encodeList c.data

/-- Decode one column from the front of a byte list. -/
def decodeColumn (bs : List Nat) : Option (Column × List Nat) :=
  match decodeList bs with
  | none => none
  | some (nm, bs1) =>
    match decodeList bs1 with
    | none => none
    | some (d, bs2) => some (⟨nm, d⟩, bs2)

/-- Decode exactly `count` columns from the front of a byte list. -/
def decodeColumns : Nat → List Nat → Option (List Column × List Nat)
  | 0, bs => some ([], bs)
  | k + 1, bs =>
    match decodeColumn bs with
    | none => none
    | some (c, bs1) =>
      match decodeColumns k bs1 with
      | none => none
      | some (cs, bs2) => some (c :: cs, bs2)

/-- Modelled from the spec: the Arrow IPC stream produced and consumed by
`pyarrow.ipc` (a dependency, not part of this repository) is a
"self-describing streaming binary container encoding a typed table
(schema + column buffers)". We model it as a concrete self-describing byte
serialization: a column count followed by each column's schema entry (name)
and data buffer. -/
def encodeTable (t : Table) : List Nat :=
  encodeVarint t.columns.length ++ (t.columns.map encodeColumn).flatten

/-- Modelled from the spec: the decoding half of the Arrow IPC stream codec
(`ipc.open_stream` followed by `read_all` in the source); fails on any byte
stream that is not a complete encoded table. -/
def decodeTable (bs : List Nat) : Option Table :=
  match decodeVarint bs with
  | none => none
  | some (k, bs1) =>
    match decodeColumns k bs1 with
    | none => none
    | some (cs, rest) => if rest.isEmpty then some ⟨cs⟩ else none

/-! ### Base64 (RFC 4648), the behaviour of Python `base64.b64encode` /
`base64.b64decode` on valid input; operates on byte values and produces /
consumes character codes of the base64 alphabet -/

/-- Character code of the base64 alphabet entry for a sextet. -/
def b64CharOf (s : Nat) : Nat :=
  if s < 26 then 65 + s
  else if s < 52 then 97 + (s - 26)
  else if s < 62 then 48 + (s - 52)
  else if s = 62 then 43
  else 47

/-- Sextet denoted by a base64 alphabet character code, if any. -/
def b64SextOf (c : Nat) : Option Nat :=
  if 65 ≤ c ∧ c ≤ 90 then some (c - 65)
  else if 97 ≤ c ∧ c ≤ 122 then some (c - 97 + 26)
  else if 48 ≤ c ∧ c ≤ 57 then some (c - 48 + 52)
  else if c = 43 then some 62
  else if c = 47 then some 63
  else none

/-- Base64-encode a byte list into a list of character codes, padding the
final group with the code 61 of the padding character. -/
def b64encode : List Nat → List Nat
  | b1 :: b2 :: b3 :: rest =>
    b64CharOf (b1 / 4) :: b64CharOf (b1 % 4 * 16 + b2 / 16) ::
      b64CharOf (b2 % 16 * 4 + b3 / 64) :: b64CharOf (b3 % 64) :: b64encode rest
  | [b1, b2] => [b64CharOf (b1 / 4), b64CharOf (b1 % 4 * 16 + b2 / 16), b64CharOf (b2 % 16 * 4), 61]
  | [b1] => [b64CharOf (b1 / 4), b64CharOf (b1 % 4 * 16), 61, 61]
  | [] => []

/-- Base64-decode a list of character codes back into bytes; `none` on
malformed input. -/
def b64decode : List Nat → Option (List Nat)
  | [] => some []
  | c1 :: c2 :: c3 :: c4 :: rest =>
    match b64SextOf c1, b64SextOf c2 with
    | some s1, some s2 =>
      if c3 = 61 ∧ c4 = 61 ∧ rest = [] then
        some [s1 * 4 + s2 / 16]
      else if c4 = 61 ∧ rest = [] then
        match b64SextOf c3 with
        | some s3 => some [s1 * 4 + s2 / 16, s2 % 16 * 16 + s3 / 4]
        | none => none
      else
        match b64SextOf c3, b64SextOf c4 with
        | some s3, some s4 =>
          match b64decode rest with
          | some bs => some ((s1 * 4 + s2 / 16) :: (s2 % 16 * 16 + s3 / 4) :: (s3 % 4 * 64 + s4) :: bs)
          | none => none
        | _, _ => none
    | _, _ => none
  | _ => none

/-! ### The query-execution client (src/omni_python_sdk/api.py) -/

/-- Model of `requests.Response.raise_for_status`: raises an HTTP error
exactly for client-error (4xx) and server-error (5xx) status codes. -/
def raise_for_status (code : Nat) : Except QErr Unit :=
  if 400 ≤ code ∧ code < 600 then .error (.httpError code) else .ok ()

/-- Embedding of `OmniAPI.wait_query_blocking` (api.py lines 38-61) applied
to the wait-endpoint response it receives. On status 200 it parses the
NDJSON body, takes the last record as footer (IndexError on an empty body),
reads its `timed_out` key (KeyError when absent) and returns the records
together with the done flag `timed_out == "false"`. On any other status it
calls `raise_for_status` and, when that does not raise, falls off the end
of the function returning `None` (modelled as `.ok none`). -/
def wait_query_blocking (resp : HttpResponse) : Except QErr (Option (List Record × Bool)) :=
  if resp.status_code = 200 then
    match resp.records.getLast? with
    | none => .error .indexError
    | some footer =>
      match footer.timed_out with
      | none => .error (.keyError "timed_out")
      | some t => .ok (some (resp.records, t == "false"))
  else
    match raise_for_status resp.status_code with
    | .error e => .error e
    | .ok _ => .ok none

/-- Embedding of the `while not done:` polling loop of
`OmniAPI.run_query_blocking` (api.py lines 82-83). `footer` is the footer of
the INITIAL response: the Python loop never rebinds the `footer` variable,
so `footer['remaining_job_ids']` is re-read from that same record on every
iteration. Wait responses are consumed in order from `script`; the first
component of the result is the trace of job-handle lists sent with each
wait request, the second the final `response_json` (or the raised error).
Unpacking the `None` returned by `wait_query_blocking` on a non-200
success status raises a TypeError in the Python code. -/
def runLoop (footer : Record) : List Record → Bool → List HttpResponse →
    List (List String) × Except QErr (List Record)
  | records, true, _ => ([], .ok records)
  | _, false, script =>
    match footer.remaining_job_ids with
    | none => ([], .error (.keyError "remaining_job_ids"))
    | some jids =>
      match script with
      | [] => ([], .error .scriptEnd)
      | resp :: rest =>
        match wait_query_blocking resp with
        | .error e => ([jids], .error e)
        | .ok none => ([jids], .error .typeError)
        | .ok (some (recs, d)) =>
          let out := runLoop footer recs d rest
          (jids :: out.1, out.2)

/-- Embedding of the decode step of `OmniAPI.run_query_blocking` (api.py
lines 84-94): find the first record holding a `result` key; if none exists
raise `ValueError("No result found in the response.")`; otherwise
base64-decode the `result` string, decode the bytes as an Arrow IPC stream,
and return the table together with the record's `summary.fields`. -/
def decodeStep (records : List Record) : Except QErr (Table × List FieldDesc) :=
  match records.find? (fun r => r.result.isSome) with
  | none => .error (.valueError "No result found in the response.")
  | some payload =>
    match payload.result with
    | none => .error .b64Error
    | some base64_data =>
      match b64decode base64_data with
      | none => .error .b64Error
      | some raw_arrow_data =>
        match decodeTable raw_arrow_data with
        | none => .error .arrowError
        | some table =>
          match payload.summary_fields with
          | none => .error (.keyError "summary")
          | some fields => .ok (table, fields)

/-- Embedding of `OmniAPI.run_query_blocking` (api.py lines 63-96), given
the submit-endpoint response and the script of wait-endpoint responses.
Returns the trace of wait-request job-handle lists together with the
outcome: `.ok (some (table, fields))` on success, `.ok none` when the
Python function falls off the end after a non-raising non-200 status, or
the raised error. -/
def run_query_blocking (initResp : HttpResponse) (script : List HttpResponse) :
    List (List String) × Except QErr (Option (Table × List FieldDesc)) :=
  if initResp.status_code = 200 then
    match initResp.records.getLast? with
    | none => ([], .error .indexError)
    | some footer =>
      match footer.timed_out with
      | none => ([], .error (.keyError "timed_out"))
      | some t =>
        let out := runLoop footer initResp.records (t == "false") script
        match out.2 with
        | .error e => (out.1, .error e)
        | .ok finalRecords =>
          match decodeStep finalRecords with
          | .error e => (out.1, .error e)
          | .ok r => (out.1, .ok (some r))
  else
    match raise_for_status initResp.status_code with
    | .error e => ([], .error e)
    | .ok _ => ([], .ok none)

/-! ### Body-mutating create helpers (api.py lines 180-310) -/

/-- Python dictionary with string keys and values, modelled as an
association list with unique keys in insertion order. -/
def StrDict := List (String × String)

/-- Python dictionary assignment `d[k] = v`: overwrite in place when the key
exists, otherwise append at the end. -/
def setKey : StrDict → String → String → StrDict
  | [], k, v => [(k, v)]
  | (k0, v0) :: rest, k, v =>
    if k0 = k then (k0, v) :: rest else (k0, v0) :: setKey rest k v

/-- Python dictionary lookup `d.get(k)`. -/
def getKey : StrDict → String → Option String
  | [], _ => none
  | (k0, v0) :: rest, k => if k0 = k then some v0 else getKey rest k

/-- Embedding of the body mutation performed by `OmniAPI.create_model`
(api.py line 192): `body["connectionId"] = connection_id` executes before
the request is sent, so the returned dictionary is both the request payload
and the state of the caller's dictionary after the call. -/
def create_model (connection_id : String) (body : StrDict) : StrDict :=
  setKey body "connectionId" connection_id

/-- Embedding of the body mutation performed by `OmniAPI.create_topic`
(api.py line 209): `body["baseViewName"] = base_view_name`. -/
def create_topic (base_view_name : String) (body : StrDict) : StrDict :=
  setKey body "baseViewName" base_view_name

/-- Embedding of the body mutation performed by `OmniAPI.create_view`
(api.py line 257): `body["viewName"] = view_name`. -/
def create_view (view_name : String) (body : StrDict) : StrDict :=
  setKey body "viewName" view_name

/-- Embedding of the body mutations performed by `OmniAPI.create_field`
(api.py lines 307-308): `body["fieldName"] = field_name` then
`body["viewName"] = view_name`. -/
def create_field (view_name field_name : String) (body : StrDict) : StrDict :=
  setKey (setKey body "fieldName" field_name) "viewName" view_name

/-! ### The `listify` helper (api.py lines 551-566) -/

/-- A Python value that is either a string or a list of strings, as produced
by `listify`. -/
inductive PyValue where
  | str (s : String)
  | list (l : List String)
deriving DecidableEq

/-- Python `s.replace(c, '')` for a single-character pattern: delete every
occurrence of that character. -/
def pyReplace (s : String) (c : Char) : String :=
  String.mk (s.toList.filter (fun x => x ≠ c))

/-- Python `s.split(',')` on the character list: split at every comma,
keeping empty and whitespace-padded items verbatim. -/
def splitCommaAux : List Char → List (List Char)
  | [] => [[]]
  | c :: rest =>
    if c = ',' then [] :: splitCommaAux rest
    else
      match splitCommaAux rest with
      | [] => [[c]]
      | g :: gs => (c :: g) :: gs

/-- Python `s.split(',')`. -/
def pySplitComma (s : String) : List String :=
  (splitCommaAux s.toList).map String.mk

/-- Embedding of `OmniAPI.listify` (api.py lines 551-566): for each entry,
when the value contains both a left and a right square bracket it is
replaced by `v.replace('[','').replace(']','').split(',')`, otherwise kept
unchanged. Iterating `d.items()` and inserting into the fresh `out` dict
preserves the keys and their order. -/
def listify (d : List (String × String)) : List (String × PyValue) :=
  d.map (fun kv =>
    if '[' ∈ kv.2.toList ∧ ']' ∈ kv.2.toList then
      (kv.1, .list (pySplitComma (pyReplace (pyReplace kv.2 '[') ']')))
    else (kv.1, .str kv.2))

/-- The transformation claimed for `listify`, written from the words of the
claim: a value containing both a left and a right square bracket anywhere is
replaced by the list obtained by deleting every square bracket character and
splitting the remainder on commas; every other value is kept unchanged. -/
def listifySpec (d : List (String × String)) : List (String × PyValue) :=
  d.map (fun kv =>
    if '[' ∈ kv.2.toList ∧ ']' ∈ kv.2.toList then
      (kv.1, .list (pySplitComma
        (String.mk (kv.2.toList.filter (fun c => c ≠ '[' ∧ c ≠ ']')))))
    else (kv.1, .str kv.2))

/-! ### Round-trip lemmas for the table codec -/

theorem decodeVarint_varintBytes (fuel : Nat) :
    ∀ n rest, n < fuel → decodeVarint (varintBytes fuel n ++ rest) = some (n, rest) := by
  induction fuel with
  | zero => intro n rest h; omega
  | succ k ih =>
    intro n rest h
    by_cases hn : n < 128
    · simp [varintBytes, hn, decodeVarint]
    · have hdiv : n / 128 < k := by omega
      simp only [varintBytes, hn, if_false, List.cons_append, decodeVarint,
        ih (n / 128) rest hdiv]
      have : ¬ n % 128 + 128 < 128 := by omega
      simp only [this, if_false]
      have : n % 128 + 128 - 128 + 128 * (n / 128) = n := by omega
      rw [this]

theorem decodeVarint_encodeVarint (n : Nat) (rest : List Nat) :
    decodeVarint (encodeVarint n ++ rest) = some (n, rest) :=
  decodeVarint_varintBytes (n + 1) n rest (by omega)

theorem decodeNats_encode (l : List Nat) (rest : List Nat) :
    decodeNats l.length ((l.map encodeVarint).flatten ++ rest) = some (l, rest) := by
  induction l generalizing rest with
  | nil => simp [decodeNats]
  | cons v l ih =>
    simp only [List.map_cons, List.flatten_cons, List.length_cons, List.append_assoc,
      decodeNats, decodeVarint_encodeVarint, ih]

theorem decodeList_encodeList (l : List Nat) (rest : List Nat) :
    decodeList (encodeList l ++ rest) = some (l, rest) := by
  simp only [decodeList, encodeList, List.append_assoc, decodeVarint_encodeVarint,
    decodeNats_encode]

theorem decodeColumn_encodeColumn (c : Column) (rest : List Nat) :
    decodeColumn (encodeColumn c ++ rest) = some (c, rest) := by
  simp only [decodeColumn, encodeColumn, List.append_assoc, decodeList_encodeList]

theorem decodeColumns_encode (cs : List Column) (rest : List Nat) :
    decodeColumns cs.length ((cs.map encodeColumn).flatten ++ rest) = some (cs, rest) := by
  induction cs generalizing rest with
  | nil => simp [decodeColumns]
  | cons c cs ih =>
    simp only [List.map_cons, List.flatten_cons, List.length_cons, List.append_assoc,
      decodeColumns, decodeColumn_encodeColumn, ih]

theorem decodeTable_encodeTable (t : Table) : decodeTable (encodeTable t) = some t := by
  have h := decodeColumns_encode t.columns []
  rw [List.append_nil] at h
  have h2 := decodeVarint_encodeVarint t.columns.length (t.columns.map encodeColumn).flatten
  simp only [decodeTable, encodeTable, h2, h, List.isEmpty_nil, if_true]

/-! ### Byte bounds for the table codec -/

theorem varintBytes_lt (fuel : Nat) : ∀ n, ∀ b ∈ varintBytes fuel n, b < 256 := by
  induction fuel with
  | zero => intro n b hb; simp [varintBytes] at hb
  | succ k ih =>
    intro n b hb
    by_cases hn : n < 128
    · simp [varintBytes, hn] at hb; omega
    · simp only [varintBytes, hn, if_false, List.mem_cons] at hb
      rcases hb with hb | hb
      · omega
      · exact ih (n / 128) b hb

theorem encodeVarint_lt (n : Nat) : ∀ b ∈ encodeVarint n, b < 256 :=
  varintBytes_lt (n + 1) n

theorem encodeList_lt (l : List Nat) : ∀ b ∈ encodeList l, b < 256 := by
  intro b hb
  simp only [encodeList, List.mem_append, List.mem_flatten, List.mem_map] at hb
  rcases hb with hb | ⟨bs, ⟨v, _, hv⟩, hb⟩
  · exact encodeVarint_lt _ b hb
  · exact encodeVarint_lt v b (hv ▸ hb)

theorem encodeColumn_lt (c : Column) : ∀ b ∈ encodeColumn c, b < 256 := by
  intro b hb
  simp only [encodeColumn, List.mem_append] at hb
  rcases hb with hb | hb
  · exact encodeList_lt _ b hb
  · exact encodeList_lt _ b hb

theorem encodeTable_lt (t : Table) : ∀ b ∈ encodeTable t, b < 256 := by
  intro b hb
  simp only [encodeTable, List.mem_append, List.mem_flatten, List.mem_map] at hb
  rcases hb with hb | ⟨bs, ⟨c, _, hc⟩, hb⟩
  · exact encodeVarint_lt _ b hb
  · exact encodeColumn_lt c b (hc ▸ hb)

/-! ### Round-trip lemmas for base64 -/

theorem b64SextOf_b64CharOf : ∀ s, s < 64 → b64SextOf (b64CharOf s) = some s := by decide

theorem b64CharOf_ne_61 : ∀ s, s < 64 → b64CharOf s ≠ 61 := by decide

theorem b64decode_b64encode :
    ∀ bs : List Nat, (∀ b ∈ bs, b < 256) → b64decode (b64encode bs) = some bs
  | [], _ => rfl
  | [b1], h => by
    have h1 : b1 < 256 := h b1 (by simp)
    have e1 := b64SextOf_b64CharOf (b1 / 4) (by omega)
    have e2 := b64SextOf_b64CharOf (b1 % 4 * 16) (by omega)
    simp [b64encode, b64decode, e1, e2]
    omega
  | [b1, b2], h => by
    have h1 : b1 < 256 := h b1 (by simp)
    have h2 : b2 < 256 := h b2 (by simp)
    have e1 := b64SextOf_b64CharOf (b1 / 4) (by omega)
    have e2 := b64SextOf_b64CharOf (b1 % 4 * 16 + b2 / 16) (by omega)
    have e3 := b64SextOf_b64CharOf (b2 % 16 * 4) (by omega)
    have ne3 := b64CharOf_ne_61 (b2 % 16 * 4) (by omega)
    simp [b64encode, b64decode, e1, e2, e3, ne3]
    omega
  | b1 :: b2 :: b3 :: rest, h => by
    have h1 : b1 < 256 := h b1 (by simp)
    have h2 : b2 < 256 := h b2 (by simp)
    have h3 : b3 < 256 := h b3 (by simp)
    have e1 := b64SextOf_b64CharOf (b1 / 4) (by omega)
    have e2 := b64SextOf_b64CharOf (b1 % 4 * 16 + b2 / 16) (by omega)
    have e3 := b64SextOf_b64CharOf (b2 % 16 * 4 + b3 / 64) (by omega)
    have e4 := b64SextOf_b64CharOf (b3 % 64) (by omega)
    have ne4 := b64CharOf_ne_61 (b3 % 64) (by omega)
    have ih := b64decode_b64encode rest (fun b hb => h b (by simp [hb]))
    simp [b64encode, b64decode, e1, e2, e3, e4, ne4, ih]
    omega

/-! ### Helper lemmas about the polling loop and the decode step -/

theorem run_query_blocking_200 (init : HttpResponse) (script : List HttpResponse)
    (f : Record) (t : String) (h200 : init.status_code = 200)
    (hlast : init.records.getLast? = some f) (ht : f.timed_out = some t) :
    run_query_blocking init script =
      ((runLoop f init.records (t == "false") script).1,
        match (runLoop f init.records (t == "false") script).2 with
        | .error e => .error e
        | .ok finalRecords =>
          match decodeStep finalRecords with
          | .error e => .error e
          | .ok r => .ok (some r)) := by
  simp only [run_query_blocking, h200, hlast, ht, if_true]
  rcases hres : (runLoop f init.records (t == "false") script).2 with e | finalRecords
  · simp only [hres]
  · simp only [hres]
    rcases hdec : decodeStep finalRecords with e | r <;> simp only [hdec]

theorem runLoop_done (footer : Record) (records : List Record)
    (script : List HttpResponse) :
    runLoop footer records true script = ([], .ok records) := by
  cases script <;> rfl

theorem runLoop_trace_mem (footer : Record) (jids : List String)
    (h : footer.remaining_job_ids = some jids) :
    ∀ (script : List HttpResponse) (records : List Record) (done : Bool),
      ∀ l ∈ (runLoop footer records done script).1, l = jids := by
  intro script
  induction script with
  | nil =>
    intro records done l hl
    cases done
    · simp [runLoop, h] at hl
    · simp [runLoop] at hl
  | cons resp rest ih =>
    intro records done l hl
    cases done
    · simp only [runLoop, h] at hl
      cases hw : wait_query_blocking resp with
      | error e => simp only [hw] at hl; simp at hl; simp [hl]
      | ok o =>
        cases o with
        | none => simp only [hw] at hl; simp at hl; simp [hl]
        | some rd =>
          simp only [hw] at hl
          simp at hl
          rcases hl with hl | hl
          · exact hl
          · exact ih rd.1 rd.2 l hl
    · simp [runLoop] at hl

theorem find?_result_pre_cons :
    ∀ (pre : List Record) (x : Record) (post : List Record),
      (∀ r ∈ pre, r.result = none) → x.result.isSome →
      (pre ++ x :: post).find? (fun r => r.result.isSome) = some x := by
  intro pre
  induction pre with
  | nil =>
    intro x post _ hx
    simp [List.find?, hx]
  | cons r pre ih =>
    intro x post hpre hx
    have hr : r.result = none := hpre r (by simp)
    simp only [List.cons_append, List.find?, hr, Option.isSome_none]
    exact ih x post (fun r' hr' => hpre r' (by simp [hr'])) hx

theorem decodeStep_no_result (records : List Record)
    (h : ∀ r ∈ records, r.result = none) :
    decodeStep records = .error (.valueError "No result found in the response.") := by
  have : records.find? (fun r => r.result.isSome) = none := by
    rw [List.find?_eq_none]
    intro r hr
    simp [h r hr]
  simp [decodeStep, this]

theorem decodeStep_payload (pre : List Record) (payload : Record) (post : List Record)
    (tbl : Table) (fields : List FieldDesc)
    (hpre : ∀ r ∈ pre, r.result = none)
    (hres : payload.result = some (b64encode (encodeTable tbl)))
    (hfields : payload.summary_fields = some fields) :
    decodeStep (pre ++ payload :: post) = .ok (tbl, fields) := by
  have hfind := find?_result_pre_cons pre payload post hpre (by simp [hres])
  simp only [decodeStep, hfind, hres, hfields,
    b64decode_b64encode (encodeTable tbl) (encodeTable_lt tbl), decodeTable_encodeTable]

/-! ### Helper lemmas about the dictionary model -/

theorem getKey_setKey_same (d : StrDict) (k v : String) :
    getKey (setKey d k v) k = some v := by
  induction d with
  | nil => simp [setKey, getKey]
  | cons kv rest ih =>
    by_cases hk : kv.1 = k
    · simp [setKey, getKey, hk]
    · simp [setKey, getKey, hk, ih]

theorem getKey_setKey_other (d : StrDict) (k k' v : String) (hne : k' ≠ k) :
    getKey (setKey d k' v) k = getKey d k := by
  induction d with
  | nil => simp [setKey, getKey, hne]
  | cons kv rest ih =>
    by_cases hk : kv.1 = k'
    · simp [setKey, getKey, hk, hne]
    · simp [setKey, getKey, hk, ih]

theorem wait_query_blocking_200 (resp : HttpResponse) (f : Record) (t : String)
    (h200 : resp.status_code = 200) (hlast : resp.records.getLast? = some f)
    (ht : f.timed_out = some t) :
    wait_query_blocking resp = .ok (some (resp.records, t == "false")) := by
  simp only [wait_query_blocking, h200, hlast, ht, if_true]

theorem wait_query_blocking_200_nokey (resp : HttpResponse) (f : Record)
    (h200 : resp.status_code = 200) (hlast : resp.records.getLast? = some f)
    (ht : f.timed_out = none) :
    wait_query_blocking resp = .error (.keyError "timed_out") := by
  simp only [wait_query_blocking, h200, hlast, ht, if_true]

/-! ### Helper lemma about `listify` -/

theorem filter_brackets (cs : List Char) :
    (cs.filter (fun x => x ≠ '[')).filter (fun x => x ≠ ']') =
      cs.filter (fun c => decide (c ≠ '[' ∧ c ≠ ']')) := by
  rw [List.filter_filter]
  simp [Bool.and_comm]

theorem pyReplace_brackets (s : String) :
    pyReplace (pyReplace s '[') ']' =
      String.mk (s.toList.filter (fun c => decide (c ≠ '[' ∧ c ≠ ']'))) := by
  have h : (String.mk (s.toList.filter (fun x => x ≠ '['))).toList =
      s.toList.filter (fun x => x ≠ '[') := rfl
  simp only [pyReplace, h, filter_brackets]

/-! ### Claim theorems -/

/-- C3: for every completed response sequence (the poll loop finished with
final records `finalRecords`) in which no record contains a `result` key,
`run_query_blocking` raises the distinct protocol-violation
`ValueError("No result found in the response.")` rather than returning a
null or empty result; no table or field metadata is returned. -/
theorem C3_no_result_raises_value_error (init : HttpResponse)
    (script : List HttpResponse) (f : Record) (t : String)
    (finalRecords : List Record)
    (h200 : init.status_code = 200)
    (hlast : init.records.getLast? = some f)
    (ht : f.timed_out = some t)
    (hloop : (runLoop f init.records (t == "false") script).2 = .ok finalRecords)
    (hnores : ∀ r ∈ finalRecords, r.result = none) :
    (run_query_blocking init script).2 =
      .error (.valueError "No result found in the response.") := by
  rw [run_query_blocking_200 init script f t h200 hlast ht]
  simp only [hloop, decodeStep_no_result finalRecords hnores]

/-- Witness for C3 at a concrete immediately-complete response whose single
record is the footer and carries no `result` key. -/
theorem C3_witness :
    (run_query_blocking ⟨200, [⟨some "false", none, none, none⟩]⟩ []).2 =
      .error (.valueError "No result found in the response.") :=
  C3_no_result_raises_value_error ⟨200, [⟨some "false", none, none, none⟩]⟩ []
    ⟨some "false", none, none, none⟩ "false" [⟨some "false", none, none, none⟩]
    rfl rfl rfl rfl (by decide)

/-- C5: for every query whose initial submit response has a footer with
`timed_out` equal to the string "false", `run_query_blocking` issues zero
calls to the wait endpoint (the wait-call trace is empty), whatever wait
responses the remote would have provided. -/
theorem C5_immediate_completion_no_polling (init : HttpResponse)
    (script : List HttpResponse) (f : Record)
    (h200 : init.status_code = 200)
    (hlast : init.records.getLast? = some f)
    (ht : f.timed_out = some "false") :
    (run_query_blocking init script).1 = [] := by
  rw [run_query_blocking_200 init script f "false" h200 hlast ht]
  have hb : ("false" == "false") = true := rfl
  rw [hb, runLoop_done]

/-- Witness for C5 at a concrete immediately-complete response, with a
nonempty wait script available but unused. -/
theorem C5_witness :
    (run_query_blocking ⟨200, [⟨some "false", none, none, none⟩]⟩
      [⟨200, [⟨some "false", none, none, none⟩]⟩]).1 = [] :=
  C5_immediate_completion_no_polling ⟨200, [⟨some "false", none, none, none⟩]⟩
    [⟨200, [⟨some "false", none, none, none⟩]⟩] ⟨some "false", none, none, none⟩
    rfl rfl rfl

/-- C7: encoding an in-memory table via the columnar exchange format,
base64-encoding it into a result record, and decoding it through
`run_query_blocking`'s decode step reproduces the original schema and data
exactly, alongside the record's field metadata. -/
theorem C7_encode_decode_roundtrip (tbl : Table) (fields : List FieldDesc) :
    decodeStep [{ result := some (b64encode (encodeTable tbl)),
                  summary_fields := some fields }] = .ok (tbl, fields) := by
  have h := decodeStep_payload [] ⟨none, none, some (b64encode (encodeTable tbl)),
    some fields⟩ [] tbl fields (by intro r hr; simp at hr) rfl rfl
  simpa using h

/-- C8: `create_model`, `create_topic`, `create_view` and `create_field`
mutate the caller-supplied body dictionary in place before sending the
request, so after the call the caller's dictionary contains the added keys
`connectionId`, `baseViewName`, `viewName`, and `fieldName`/`viewName`
respectively, bound to the argument values. -/
theorem C8_create_helpers_mutate_body
    (connection_id base_view_name view_name field_name : String)
    (body : StrDict) :
    getKey (create_model connection_id body) "connectionId" = some connection_id ∧
    getKey (create_topic base_view_name body) "baseViewName" = some base_view_name ∧
    getKey (create_view view_name body) "viewName" = some view_name ∧
    getKey (create_field view_name field_name body) "fieldName" = some field_name ∧
    getKey (create_field view_name field_name body) "viewName" = some view_name := by
  refine ⟨getKey_setKey_same body _ _, getKey_setKey_same body _ _,
    getKey_setKey_same body _ _, ?_, getKey_setKey_same _ _ _⟩
  rw [create_field, getKey_setKey_other _ _ _ _ (by decide)]
  exact getKey_setKey_same body _ _

/-- C9: a wait-endpoint response with a success status other than 200 (for
example 201 or 204) raises no transport error (`raise_for_status` does not
raise for success codes) and makes `wait_query_blocking` return `None`
instead of a (records, done) pair, so the caller receives no poll response
for that request. -/
theorem C9_wait_2xx_not_200_returns_none (resp : HttpResponse)
    (h1 : 200 < resp.status_code) (h2 : resp.status_code < 300) :
    wait_query_blocking resp = .ok none := by
  have hne : ¬ resp.status_code = 200 := by omega
  have hr : ¬ (400 ≤ resp.status_code ∧ resp.status_code < 600) := by omega
  simp only [wait_query_blocking, if_neg hne, raise_for_status, if_neg hr]

/-- Witness for C9 at status 201. -/
theorem C9_witness : wait_query_blocking ⟨201, []⟩ = .ok none :=
  C9_wait_2xx_not_200_returns_none ⟨201, []⟩ (by decide) (by decide)

/-- C10: `listify` keeps exactly the keys of its input dictionary, replaces
every value containing both a left and a right square bracket by the list
obtained by deleting every square bracket character and splitting the
remainder on commas (keeping surrounding whitespace of each item), and
keeps every other value unchanged; `listifySpec` is this description
written out from the claim. -/
theorem C10_listify_behaviour (d : List (String × String)) :
    listify d = listifySpec d ∧ (listify d).map Prod.fst = d.map Prod.fst := by
  constructor
  · simp only [listify, listifySpec, pyReplace_brackets]
  · simp only [listify, List.map_map]
    induction d with
    | nil => rfl
    | cons kv rest ih =>
      simp only [List.map_cons, Function.comp_apply] at ih ⊢
      rw [ih]
      have : (if '[' ∈ kv.2.toList ∧ ']' ∈ kv.2.toList then
          (kv.1, PyValue.list (pySplitComma (pyReplace (pyReplace kv.2 '[') ']')))
        else (kv.1, PyValue.str kv.2)).1 = kv.1 := by
        split <;> rfl
      rw [this]

/-- C1 counterexample: with an initial footer carrying job handles ["a"] and
a first wait response whose footer carries job handles ["b"] and is not yet
done, the claim predicts the second wait request carries ["b"] (the latest
footer observed); the code sends ["a"] again, because the `footer` variable
is never rebound inside the loop. -/
theorem C1_counterexample :
    (run_query_blocking ⟨200, [⟨some "true", some ["a"], none, none⟩]⟩
        [⟨200, [⟨some "true", some ["b"], none, none⟩]⟩,
         ⟨200, [⟨some "false", none, none, none⟩]⟩]).1 = [["a"], ["a"]] ∧
    (["a"] : List String) ≠ ["b"] := by
  constructor
  · rfl
  · decide

/-- C1 amended: for every execution of `run_query_blocking` that enters the
polling loop, each wait request carries the remaining job handles of the
INITIAL response's footer; the `footer` variable is never updated inside
the loop, so job handles from later footers are never used. Stated as: the
wait-call trace is a constant list repeating the initial footer's job
handles. -/
theorem C1_every_wait_uses_initial_footer (init : HttpResponse)
    (script : List HttpResponse) (f : Record) (jids : List String)
    (h200 : init.status_code = 200)
    (hlast : init.records.getLast? = some f)
    (hj : f.remaining_job_ids = some jids) :
    (run_query_blocking init script).1 =
      List.replicate (run_query_blocking init script).1.length jids := by
  rw [List.eq_replicate_iff]
  refine ⟨rfl, ?_⟩
  cases ht : f.timed_out with
  | none =>
    intro l hl
    simp only [run_query_blocking, h200, hlast, ht, if_true] at hl
    simp at hl
  | some t =>
    rw [run_query_blocking_200 init script f t h200 hlast ht]
    exact runLoop_trace_mem f jids hj script init.records (t == "false")

/-- Witness for C1 amended: a run with two wait calls, both carrying the
initial footer's job handles. -/
theorem C1_witness :
    (run_query_blocking ⟨200, [⟨some "true", some ["a"], none, none⟩]⟩
        [⟨200, [⟨some "true", some ["b"], none, none⟩]⟩,
         ⟨200, [⟨some "false", none, none, none⟩]⟩]).1 =
      List.replicate
        (run_query_blocking ⟨200, [⟨some "true", some ["a"], none, none⟩]⟩
          [⟨200, [⟨some "true", some ["b"], none, none⟩]⟩,
           ⟨200, [⟨some "false", none, none, none⟩]⟩]).1.length ["a"] :=
  C1_every_wait_uses_initial_footer _ _ ⟨some "true", some ["a"], none, none⟩ ["a"]
    rfl rfl rfl

/-- C2 counterexample: the claim says that when the `timed_out` field is
omitted from a footer the loop issues another poll; on a wait response whose
footer lacks `timed_out`, the code instead raises `KeyError("timed_out")`
after a single wait call, leaving the second scripted response unconsumed. -/
theorem C2_counterexample :
    run_query_blocking ⟨200, [⟨some "true", some ["a"], none, none⟩]⟩
        [⟨200, [⟨none, some ["c"], none, none⟩]⟩,
         ⟨200, [⟨some "false", none, none, none⟩]⟩] =
      ([["a"]], .error (.keyError "timed_out")) := rfl

/-- C2 amended: the poll loop terminates normally exactly when the current
footer's `timed_out` is present and equals the string "false": when the
done flag from the previous footer is set the loop stops without consuming
any wait response; when the next response's footer carries `timed_out = t`
the loop polls once more and continues with done flag `t == "false"`; when
the footer omits `timed_out`, the code raises `KeyError` instead of
polling again. -/
theorem C2_loop_termination_condition (footer f : Record) (jids : List String)
    (records : List Record) (resp : HttpResponse) (rest : List HttpResponse)
    (t : String)
    (hj : footer.remaining_job_ids = some jids)
    (h200 : resp.status_code = 200)
    (hlast : resp.records.getLast? = some f) :
    (runLoop footer records true (resp :: rest) = ([], .ok records)) ∧
    (f.timed_out = some t →
      runLoop footer records false (resp :: rest) =
        (jids :: (runLoop footer resp.records (t == "false") rest).1,
          (runLoop footer resp.records (t == "false") rest).2)) ∧
    (f.timed_out = none →
      runLoop footer records false (resp :: rest) =
        ([jids], .error (.keyError "timed_out"))) := by
  refine ⟨runLoop_done footer records (resp :: rest), ?_, ?_⟩
  · intro ht
    simp only [runLoop, hj, wait_query_blocking_200 resp f t h200 hlast ht]
  · intro ht
    simp only [runLoop, hj, wait_query_blocking_200_nokey resp f h200 hlast ht]

/-- Witness for C2 amended, at a concrete loop state and wait response whose
footer carries `timed_out = "true"`. -/
theorem C2_witness :
    (runLoop ⟨some "true", some ["a"], none, none⟩ [] true
        [⟨200, [⟨some "true", none, none, none⟩]⟩] = ([], .ok [])) ∧
    (runLoop ⟨some "true", some ["a"], none, none⟩ [] false
        [⟨200, [⟨some "true", none, none, none⟩]⟩] =
      (["a"] ::
          (runLoop ⟨some "true", some ["a"], none, none⟩
            [⟨some "true", none, none, none⟩] ("true" == "false") []).1,
        (runLoop ⟨some "true", some ["a"], none, none⟩
          [⟨some "true", none, none, none⟩] ("true" == "false") []).2)) :=
  ⟨(C2_loop_termination_condition ⟨some "true", some ["a"], none, none⟩
      ⟨some "true", none, none, none⟩ ["a"] [] ⟨200, [⟨some "true", none, none, none⟩]⟩
      [] "true" rfl rfl rfl).1,
   (C2_loop_termination_condition ⟨some "true", some ["a"], none, none⟩
      ⟨some "true", none, none, none⟩ ["a"] [] ⟨200, [⟨some "true", none, none, none⟩]⟩
      [] "true" rfl rfl rfl).2.1 rfl⟩

/-- C4 counterexample: a 304 response to the submit request is non-2xx, yet
`raise_for_status` does not raise for it, so `run_query_blocking` raises no
transport error: it falls off the end and returns `None` (and performs no
polling). The claim predicts a raised transport error for every non-2xx
status. -/
theorem C4_counterexample :
    run_query_blocking ⟨304, []⟩ [] = ([], .ok none) := rfl

/-- C4 amended: a 4xx or 5xx response from the submit or wait endpoint
raises the transport error immediately and no further wait request is
issued; a non-2xx status outside 4xx/5xx (such as 304) also stops all
polling immediately, but without a transport error: the submit call returns
`None`, and in the poll loop the `None` returned by `wait_query_blocking`
raises a `TypeError` when unpacked. In both conjuncts the remaining
scripted responses are left unconsumed. -/
theorem C4_non200_short_circuits (init : HttpResponse) (script : List HttpResponse)
    (footer : Record) (jids : List String) (records : List Record)
    (resp : HttpResponse) (rest : List HttpResponse)
    (hi : init.status_code ≠ 200)
    (hj : footer.remaining_job_ids = some jids)
    (hw : resp.status_code ≠ 200) :
    (run_query_blocking init script =
      ([], if 400 ≤ init.status_code ∧ init.status_code < 600
        then .error (.httpError init.status_code) else .ok none)) ∧
    (runLoop footer records false (resp :: rest) =
      ([jids], .error (if 400 ≤ resp.status_code ∧ resp.status_code < 600
        then .httpError resp.status_code else .typeError))) := by
  constructor
  · by_cases h : 400 ≤ init.status_code ∧ init.status_code < 600 <;>
      simp [run_query_blocking, hi, raise_for_status, h]
  · by_cases h : 400 ≤ resp.status_code ∧ resp.status_code < 600 <;>
      simp [runLoop, hj, wait_query_blocking, hw, raise_for_status, h]

/-- Witness for C4 amended: a 404 submit response raises the transport
error with no polling; a 503 wait response raises the transport error with
exactly one wait call, leaving a scripted response unconsumed. -/
theorem C4_witness :
    (run_query_blocking ⟨404, []⟩ [⟨200, [⟨some "false", none, none, none⟩]⟩] =
      ([], if 400 ≤ (404 : Nat) ∧ (404 : Nat) < 600
        then .error (.httpError 404) else .ok none)) ∧
    (runLoop ⟨some "true", some ["a"], none, none⟩ [] false
        [⟨503, []⟩, ⟨200, [⟨some "false", none, none, none⟩]⟩] =
      ([["a"]], .error (if 400 ≤ (503 : Nat) ∧ (503 : Nat) < 600
        then .httpError 503 else .typeError))) :=
  C4_non200_short_circuits ⟨404, []⟩ [⟨200, [⟨some "false", none, none, none⟩]⟩]
    ⟨some "true", some ["a"], none, none⟩ ["a"] [] ⟨503, []⟩
    [⟨200, [⟨some "false", none, none, none⟩]⟩] (by decide) rfl (by decide)

/-- C6: for every completed response sequence containing exactly one record
with a `result` key, holding a valid base64-encoded Arrow IPC payload of a
table with N columns, whose `summary.fields` holds N field descriptors,
`run_query_blocking` returns that table (column count N) together with the
field-descriptor sequence of length N, passed through verbatim and hence
order-preserving. -/
theorem C6_returns_table_and_fields (init : HttpResponse)
    (script : List HttpResponse) (f : Record) (t : String)
    (pre post : List Record) (payload : Record)
    (tbl : Table) (fields : List FieldDesc)
    (h200 : init.status_code = 200)
    (hlast : init.records.getLast? = some f)
    (ht : f.timed_out = some t)
    (hloop : (runLoop f init.records (t == "false") script).2 =
      .ok (pre ++ payload :: post))
    (hpre : ∀ r ∈ pre, r.result = none)
    (hpost : ∀ r ∈ post, r.result = none)
    (hres : payload.result = some (b64encode (encodeTable tbl)))
    (hfields : payload.summary_fields = some fields)
    (hN : fields.length = tbl.columns.length) :
    (run_query_blocking init script).2 = .ok (some (tbl, fields)) ∧
      tbl.columns.length = fields.length := by
  refine ⟨?_, hN.symm⟩
  rw [run_query_blocking_200 init script f t h200 hlast ht]
  simp only [hloop, decodeStep_payload pre payload post tbl fields hpre hres hfields]

/-- Witness for C6 at a one-column table delivered by an immediately
complete response. -/
theorem C6_witness :
    (run_query_blocking
        ⟨200, [⟨none, none, some (b64encode (encodeTable ⟨[⟨[97], [1, 2]⟩]⟩)),
                 some [⟨"a", "number"⟩]⟩,
               ⟨some "false", none, none, none⟩]⟩ []).2 =
      .ok (some (⟨[⟨[97], [1, 2]⟩]⟩, [⟨"a", "number"⟩])) ∧
    (⟨[⟨[97], [1, 2]⟩]⟩ : Table).columns.length =
      ([⟨"a", "number"⟩] : List FieldDesc).length :=
  C6_returns_table_and_fields
    ⟨200, [⟨none, none, some (b64encode (encodeTable ⟨[⟨[97], [1, 2]⟩]⟩)),
             some [⟨"a", "number"⟩]⟩,
           ⟨some "false", none, none, none⟩]⟩ []
    ⟨some "false", none, none, none⟩ "false" []
    [⟨some "false", none, none, none⟩]
    ⟨none, none, some (b64encode (encodeTable ⟨[⟨[97], [1, 2]⟩]⟩)),
      some [⟨"a", "number"⟩]⟩
    ⟨[⟨[97], [1, 2]⟩]⟩ [⟨"a", "number"⟩]
    rfl rfl rfl rfl (by decide) (by decide) rfl rfl rfl

end OmniSDK
